import Mathlib

/-!
Formal model of `streamlit_app.py` (Greatnessbio/ryanads-app).

The script sends each uploaded ad record through five fixed chat-completion
prompts, concatenates the responses, and offers the results as a CSV export.
External effects (HTTP responses, the rate-limit probe, the uploaded file)
are modelled by explicit oracles; the control flow of the Python functions
`check_rate_limits`, `analyze_ad_copy`, `process_dataframe`,
`json_to_dataframe` and the analyze-button branch of `main` is translated
definition by definition.  HTTP calls to the chat-completion endpoint are
numbered globally; an oracle `Nat → CallOutcome` gives the outcome of each
call, and every function that performs calls threads the next call index
through, so call counts are observable.
-/

set_option autoImplicit false

/-- Python exception classes the program distinguishes.  `requestException`
stands for `requests.exceptions.RequestException` raised by a transport
failure (connection error, timeout); `httpError` is the
`requests.exceptions.HTTPError` raised by `raise_for_status` on a non-2xx
status (note: in `requests` it is a subclass of `RequestException`);
`keyError` stands for the shape errors raised when indexing a JSON body
(`KeyError`, `IndexError`, `json.JSONDecodeError`); `valueError` stands for a
`json.load` parse failure; `attributeError` is raised by `.get` on a
non-dict top level. -/
inductive PyExc where
  | requestException
  | httpError (status : Nat)
  | keyError
  | valueError
  | attributeError
deriving DecidableEq, Repr

/-- Predicate used by the tenacity decorator at source lines 34-38:
`retry_if_exception_type(requests.exceptions.RequestException)`.  `HTTPError`
is a subclass of `RequestException`, so it also satisfies the predicate. -/
def PyExc.isRequestException : PyExc → Bool
  | .requestException => true
  | .httpError _ => true
  | _ => false

/-- Outcome of one HTTP POST to the chat-completion endpoint (source lines
52-75): the call raises a transport exception, or returns a non-2xx response
(for which `raise_for_status` raises), or returns a 2xx response whose JSON
body lacks the `choices[0].message.content` shape, or returns a 2xx response
with extractable content. -/
inductive CallOutcome where
  | transportError
  | httpError (status : Nat)
  | malformedBody
  | ok (content : String)
deriving DecidableEq, Repr

/-- Whether the chat-completion call produced extractable content. -/
def CallOutcome.isOk : CallOutcome → Bool
  | .ok _ => true
  | _ => false

/-- Result of the statements `requests.post(...)`, `response.raise_for_status()`,
`response.json()['choices'][0]['message']['content']` (source lines 52-75):
either the extracted content string, or the exception the first failing
statement raises. -/
def callResult : CallOutcome → Except PyExc String
  | .transportError => .error .requestException
  | .httpError s => .error (.httpError s)
  | .malformedBody => .error .keyError
  | .ok c => .ok c

/-- The five fixed analysis prompts (source lines 40-46). -/
def prompts : List String :=
  ["Analyze the headline effectiveness and keyword usage in this ad.",
   "Evaluate the description\x27s informativeness and persuasiveness.",
   "Assess the call-to-action strength and unique selling proposition.",
   "Analyze the ad\x27s relevance to search intent and emotional appeal.",
   "Provide improvement suggestions and key takeaways from this ad."]

/-- The `for prompt in prompts` loop in the body of `analyze_ad_copy`
(source lines 50-82).  `n` is the index of the next chat-completion HTTP
call; the accumulator is `full_analysis`.  The whole loop body sits inside
`try ... except Exception: st.error(...); return None`, so ANY exception
raised by a call (transport, HTTP status, body shape) is caught and the
function returns `None`; hence the result is always `Except.ok`.  The
returned `Nat` is the next call index after the loop.  The `time.sleep(1)`
between prompts has no observable effect in this model. -/
def analyzeLoop (oracle : Nat → CallOutcome) :
    List String → Nat → String → Except PyExc (Option String) × Nat
  | [], n, acc => (.ok (some acc), n)
  | _prompt :: rest, n, acc =>
    match callResult (oracle n) with
    | .ok content => analyzeLoop oracle rest (n + 1) (acc ++ content ++ "\n\n")
    | .error _e => (.ok none, n + 1)

/-- The undecorated body of `analyze_ad_copy` (source lines 39-83).  The ad
copy and search term only shape the request payload; the outcome of each call
comes from the oracle. -/
def analyzeBody (oracle : Nat → CallOutcome) (_ad_copy _search_term : String)
    (n : Nat) : Except PyExc (Option String) × Nat :=
  analyzeLoop oracle prompts n ""

/-- Result of one invocation of the tenacity-decorated function: the value
returned (or the exception raised), the next HTTP call index, and the number
of executions of the body the retry wrapper performed. -/
structure AnalyzeOut where
  result : Except PyExc (Option String)
  calls : Nat
  attempts : Nat
deriving Repr

/-- The tenacity `@retry` decorator (source lines 34-38):
`stop_after_attempt(3)` and `retry_if_exception_type(RequestException)`.
`remaining` counts the retries still allowed, `attempt` the 1-based attempt
number.  The body is run; if it returns normally the value is returned, and
if it raises an exception matching the predicate while retries remain, the
wrapper waits (`wait_exponential(multiplier=1, min=4, max=10)`, not
observable here) and runs the body again.  A non-matching exception, or
exhaustion of the attempts, propagates the failure. -/
def tenacityRetry (shouldRetry : PyExc → Bool)
    (body : Nat → Except PyExc (Option String) × Nat) :
    Nat → Nat → Nat → AnalyzeOut
  | remaining, attempt, n =>
    match body n with
    | (.ok v, n2) => ⟨.ok v, n2, attempt⟩
    | (.error e, n2) =>
      match remaining with
      | 0 => ⟨.error e, n2, attempt⟩
      | remaining2 + 1 =>
        if shouldRetry e then tenacityRetry shouldRetry body remaining2 (attempt + 1) n2
        else ⟨.error e, n2, attempt⟩

/-- The decorated `analyze_ad_copy` (source lines 34-83): up to 3 attempts
(1 first try plus 2 retries) of the body, retrying only on
`RequestException`. -/
def analyze_ad_copy (oracle : Nat → CallOutcome) (n : Nat)
    (ad_copy search_term : String) : AnalyzeOut :=
  tenacityRetry PyExc.isRequestException (analyzeBody oracle ad_copy search_term) 2 1 n

/-- One element of the `organic_results` list: the three string fields the
program reads (source lines 88, 93-95). -/
structure AdRecord where
  title : String
  snippet : String
  displayed_link : String
deriving DecidableEq, Repr

/-- One row of the results frame built at source lines 92-97. -/
structure AnalysisResult where
  title : String
  snippet : String
  displayed_link : String
  analysis : String
deriving DecidableEq, Repr

/-- The ad-copy string built at source line 88. -/
def format_ad_copy (row : AdRecord) : String :=
  "Title: " ++ row.title ++ "\nSnippet: " ++ row.snippet ++ "\nDisplay URL: " ++ row.displayed_link

/-- The function `process_dataframe` (source lines 85-104): iterate the rows
in order, call `analyze_ad_copy` once per row, and append a result row only
when the analysis is not `None`.  An exception raised by `analyze_ad_copy`
would propagate (there is no handler here); the per-row `st.error` /
`st.success` notifications and the `time.sleep(1)` are not observable in
this model.  Returns the result rows and the next HTTP call index. -/
def process_dataframe (oracle : Nat → CallOutcome) (search_term : String) :
    List AdRecord → Nat → Except PyExc (List AnalysisResult) × Nat
  | [], n => (.ok [], n)
  | row :: rest, n =>
    let out := analyze_ad_copy oracle n (format_ad_copy row) search_term
    match out.result with
    | .error e => (.error e, out.calls)
    | .ok none => process_dataframe oracle search_term rest out.calls
    | .ok (some analysis) =>
      match process_dataframe oracle search_term rest out.calls with
      | (.ok results, n2) =>
        (.ok ({ title := row.title, snippet := row.snippet,
                displayed_link := row.displayed_link, analysis := analysis } :: results), n2)
      | (.error e, n2) => (.error e, n2)

/-- Spec-side characterization used for claim C2: the per-record analyzer
outcome sequence, in input order, threading the call index exactly as
`process_dataframe` does.  `process_dataframe` is compared against a
`filterMap` over this sequence. -/
def recordOutcomes (oracle : Nat → CallOutcome) (search_term : String) :
    List AdRecord → Nat → List (Option String)
  | [], _ => []
  | row :: rest, n =>
    let out := analyze_ad_copy oracle n (format_ad_copy row) search_term
    (match out.result with | .ok v => v | .error _ => none) ::
      recordOutcomes oracle search_term rest out.calls

/-- Response of the account-status endpoint `GET /api/v1/auth/key` as the
program inspects it: the HTTP status, and the pair
`data.rate_limit.requests`, `data.rate_limit.interval` when the body is JSON
of that shape (`rateLimit = none` models a body that is not JSON or lacks
the shape, so that extracting the pair raises). -/
structure ProbeResponse where
  status : Nat
  rateLimit : Option (Int × Int)
deriving DecidableEq, Repr

/-- The `try` block of `check_rate_limits` (source lines 18-28).  The
argument is `none` when `requests.get` raises a transport exception.  On a
200 response the pair is extracted from the body (raising `keyError` if the
shape is missing); on a non-200 response `st.error` is emitted and
`(None, None)` returned.  The result pairs the returned value with the
number of `st.error` messages emitted. -/
def check_rate_limits_try :
    Option ProbeResponse → Except PyExc ((Option Int × Option Int) × Nat)
  | none => .error .requestException
  | some resp =>
    if resp.status = 200 then
      match resp.rateLimit with
      | some qi => .ok ((some qi.1, some qi.2), 0)
      | none => .error .keyError
    else .ok ((none, none), 1)

/-- The function `check_rate_limits` (source lines 17-31): the `try` block
above, with `except Exception as e: st.error(...); return None, None`
(source lines 29-31) catching any exception.  Total by construction: every
failure path returns `(None, None)` after one `st.error`. -/
def check_rate_limits (r : Option ProbeResponse) : (Option Int × Option Int) × Nat :=
  match check_rate_limits_try r with
  | .ok v => v
  | .error _e => ((none, none), 1)

/-- A parsed JSON document at the granularity `json_to_dataframe`
distinguishes: the top level is not an object (so `.get` raises
`AttributeError`), or it is an object whose `organic_results` key is absent
or holds a list of records each carrying the three string fields.  Elements
of other shapes are outside the claims considered here. -/
inductive JsonDoc where
  | nonObject
  | object (organic : Option (List AdRecord))
deriving DecidableEq, Repr

/-- The function `json_to_dataframe` (source lines 106-113):
`json_data.get('organic_results', [])` followed by `pd.json_normalize`.  A
missing key defaults to the empty list; a non-object top level raises. -/
def json_to_dataframe : JsonDoc → Except PyExc (List AdRecord)
  | .nonObject => .error .attributeError
  | .object organic => .ok (organic.getD [])

/-- The uploaded file: either bytes that fail to parse as JSON (`json.load`
at source line 146 raises `ValueError`), or a parsed document. -/
inductive UploadedFile where
  | invalidJson
  | parsed (doc : JsonDoc)
deriving DecidableEq, Repr

/-- Outcome of one analyze-button run: the surrounding
`except Exception as e: st.error(...)` handler at source lines 180-181 fired
(`inputError`), or the rate-limit gate at source lines 154-156 returned
early (`rateLimitGated`), or processing finished with the given result rows
(`done`). -/
inductive RunResult where
  | inputError
  | rateLimitGated
  | done (results : List AnalysisResult)
deriving DecidableEq, Repr

/-- The analyze-button flow of `main` (source lines 144-181), given an
uploaded file and a non-empty search term: `json.load`, then
`json_to_dataframe`, then `check_rate_limits` with the early `return` when
its first component is `None`, then `process_dataframe` starting at HTTP
call index 0.  Any exception escaping these steps is caught by the handler
at lines 180-181.  The returned `Nat` counts the chat-completion HTTP calls
performed. -/
def run_analyze_click (file : UploadedFile) (probe : Option ProbeResponse)
    (oracle : Nat → CallOutcome) (search_term : String) : RunResult × Nat :=
  match file with
  | .invalidJson => (.inputError, 0)
  | .parsed doc =>
    match json_to_dataframe doc with
    | .error _ => (.inputError, 0)
    | .ok df =>
      match (check_rate_limits probe).1.1 with
      | none => (.rateLimitGated, 0)
      | some _ =>
        match process_dataframe oracle search_term df 0 with
        | (.ok results, n) => (.done results, n)
        | (.error _, n) => (.inputError, n)

/-! ### CSV export model

The download artifact at source line 172 is
`st.session_state.results.to_csv(index=False)`.  The serializer is pandas
library code, modelled here from its documented contract: one header line of
the column names in insertion order, one line per row, fields separated by
commas, lines terminated by a newline, and QUOTE_MINIMAL quoting (a field is
double-quoted exactly when it contains a comma, a double quote, or a line
break, with embedded double quotes doubled).  A frame built from an empty
record list has no columns, so pandas writes only the bare line terminator.
The re-parser below is an independent standard CSV reader used to state the
round-trip claim. -/

/-- Whether QUOTE_MINIMAL must quote a field containing this character. -/
def needsQuote (c : Char) : Bool :=
  c == ',' || c == '\"' || c == '\n' || c == '\r'

/-- Double every embedded double quote. -/
def escQ : List Char → List Char
  | [] => []
  | c :: cs => if c = '\"' then '\"' :: '\"' :: escQ cs else c :: escQ cs

/-- Serialize one field under QUOTE_MINIMAL. -/
def encodeField (s : List Char) : List Char :=
  if s.any needsQuote then '\"' :: (escQ s ++ ['\"']) else s

/-- Serialize the fields of one row, comma-separated. -/
def encodeRow : List (List Char) → List Char
  | [] => []
  | [f] => encodeField f
  | f :: fs => encodeField f ++ ',' :: encodeRow fs

/-- One serialized line: a row followed by the line terminator. -/
def encodeLine (fields : List (List Char)) : List Char :=
  encodeRow fields ++ ['\n']

/-- The header fields: the column names of the results frame, in the
insertion order of the dict built at source lines 92-97. -/
def csvHeader : List (List Char) :=
  ["title".data, "snippet".data, "displayed_link".data, "analysis".data]

/-- The field tuple of one result row, in column order. -/
def toFields (r : AnalysisResult) : List (List Char) :=
  [r.title.data, r.snippet.data, r.displayed_link.data, r.analysis.data]

/-- Model of `results.to_csv(index=False)` (source line 172) under the
pandas contract described above. -/
def results_to_csv : List AnalysisResult → List Char
  | [] => ['\n']
  | rows => encodeLine csvHeader ++ (rows.map (fun r => encodeLine (toFields r))).flatten

/-- Reader for one unquoted field: consume until a comma, a line break, or
the end of input. -/
def parseUnquoted : List Char → List Char × List Char
  | [] => ([], [])
  | c :: cs =>
    if c = ',' ∨ c = '\n' then ([], c :: cs)
    else
      let p := parseUnquoted cs
      (c :: p.1, p.2)

/-- Reader for the inside of a quoted field (the opening quote already
consumed): a doubled quote is an escaped quote, a single quote closes the
field. -/
def parseQuoted : List Char → List Char × List Char
  | [] => ([], [])
  | c :: cs =>
    if c = '\"' then
      match cs with
      | [] => ([], [])
      | c2 :: cs2 =>
        if c2 = '\"' then
          let p := parseQuoted cs2
          ('\"' :: p.1, p.2)
        else ([], c2 :: cs2)
    else
      let p := parseQuoted cs
      (c :: p.1, p.2)

/-- Reader for one field: quoted if it starts with a double quote, unquoted
otherwise. -/
def parseField : List Char → List Char × List Char
  | [] => ([], [])
  | c :: cs => if c = '\"' then parseQuoted cs else parseUnquoted (c :: cs)

/-- Reader for the fields of one record, with a fuel bound on the number of
fields; returns the fields and the input after the terminating line break. -/
def parseFields : Nat → List Char → List (List Char) × List Char
  | 0, cs => ([], cs)
  | fuel + 1, cs =>
    let p := parseField cs
    match p.2 with
    | [] => ([p.1], [])
    | c :: r2 =>
      if c = ',' then
        let q := parseFields fuel r2
        (p.1 :: q.1, q.2)
      else if c = '\n' then ([p.1], r2)
      else ([p.1], c :: r2)

/-- Reader for one record: a line of `k` fields spans at least `k - 1`
separator characters, so `length + 1` field steps always suffice. -/
def parseRecord (cs : List Char) : List (List Char) × List Char :=
  parseFields (cs.length + 1) cs

/-- Reader for a sequence of records, with a fuel bound on the record
count. -/
def parseRows : Nat → List Char → List (List (List Char))
  | 0, _ => []
  | fuel + 1, cs =>
    if cs = [] then []
    else
      let r := parseRecord cs
      r.1 :: parseRows fuel r.2

/-- Reader for a whole CSV text: every record line holds at least its line
terminator, so `length + 1` record steps always suffice. -/
def parseCsv (cs : List Char) : List (List (List Char)) :=
  parseRows (cs.length + 1) cs

/-! ### Lemmas about the analyzer -/

/-- The body of `analyze_ad_copy` never lets an exception escape: the blanket
`except Exception` inside the prompt loop catches every failure, so the loop
always returns normally. -/
theorem analyzeLoop_ok (oracle : Nat → CallOutcome) :
    ∀ (ps : List String) (n : Nat) (acc : String),
    ∃ v n2, analyzeLoop oracle ps n acc = (.ok v, n2) := by
  intro ps
  induction ps with
  | nil => intro n acc; exact ⟨some acc, n, rfl⟩
  | cons p rest ih =>
    intro n acc
    cases h : callResult (oracle n) with
    | ok content =>
      obtain ⟨v, n2, hv⟩ := ih (n + 1) (acc ++ content ++ "\n\n")
      exact ⟨v, n2, by simp [analyzeLoop, h, hv]⟩
    | error e => exact ⟨none, n + 1, by simp [analyzeLoop, h]⟩

/-- Because the body never raises, the tenacity wrapper always returns the
first attempt's value: the decorated function equals one run of the loop,
with exactly one attempt. -/
theorem analyze_eq_loop (oracle : Nat → CallOutcome) (n : Nat) (ad s : String) :
    analyze_ad_copy oracle n ad s =
      ⟨(analyzeLoop oracle prompts n "").1, (analyzeLoop oracle prompts n "").2, 1⟩ := by
  obtain ⟨v, n2, hv⟩ := analyzeLoop_ok oracle prompts n ""
  simp [analyze_ad_copy, tenacityRetry, analyzeBody, hv]

/-- A call outcome with `isOk` set carries some content. -/
theorem isOk_exists {o : CallOutcome} (h : o.isOk = true) : ∃ c, o = .ok c := by
  cases o <;> simp_all [CallOutcome.isOk]

/-- When the first `ps.length` calls starting at `n` all succeed, the loop
returns some accumulated string and consumes exactly `ps.length` calls. -/
theorem analyzeLoop_all_ok (oracle : Nat → CallOutcome) :
    ∀ (ps : List String) (n : Nat) (acc : String),
    (∀ j < ps.length, (oracle (n + j)).isOk = true) →
    ∃ t, analyzeLoop oracle ps n acc = (.ok (some t), n + ps.length) := by
  intro ps
  induction ps with
  | nil => intro n acc _; exact ⟨acc, rfl⟩
  | cons p rest ih =>
    intro n acc h
    obtain ⟨c, hc⟩ := isOk_exists (h 0 (by simp))
    rw [Nat.add_zero] at hc
    have hshift : ∀ j < rest.length, (oracle (n + 1 + j)).isOk = true := by
      intro j hj
      have := h (j + 1) (by simp; omega)
      rwa [show n + (j + 1) = n + 1 + j by omega] at this
    obtain ⟨t, ht⟩ := ih (n + 1) (acc ++ c ++ "\n\n") hshift
    refine ⟨t, ?_⟩
    rw [show (p :: rest).length = rest.length + 1 from rfl]
    simp only [analyzeLoop, hc, callResult]
    rw [ht, show n + (rest.length + 1) = n + 1 + rest.length by omega]

/-- When the first failing call (0-based) among the first `ps.length` calls
is call `j`, the loop aborts there, returns `none`, and consumes exactly
`j + 1` calls. -/
theorem analyzeLoop_first_fail (oracle : Nat → CallOutcome) :
    ∀ (ps : List String) (j n : Nat) (acc : String), j < ps.length →
    (∀ k < j, (oracle (n + k)).isOk = true) → (oracle (n + j)).isOk = false →
    analyzeLoop oracle ps n acc = (.ok none, n + j + 1) := by
  intro ps
  induction ps with
  | nil => intro j n acc hj; simp at hj
  | cons p rest ih =>
    intro j n acc hj hall hfail
    cases j with
    | zero =>
      rcases ho : oracle n with _ | _ | _ | c <;>
        simp_all [analyzeLoop, callResult, CallOutcome.isOk]
    | succ k =>
      obtain ⟨c, hc⟩ := isOk_exists (hall 0 (by omega))
      rw [Nat.add_zero] at hc
      have hshift : ∀ m < k, (oracle (n + 1 + m)).isOk = true := by
        intro m hm
        have := hall (m + 1) (by omega)
        rwa [show n + (m + 1) = n + 1 + m by omega] at this
      have hfail2 : (oracle (n + 1 + k)).isOk = false := by
        rwa [show n + (k + 1) = n + 1 + k by omega] at hfail
      have := ih k (n + 1) (acc ++ c ++ "\n\n") (by simpa using hj) hshift hfail2
      simp only [analyzeLoop, hc, callResult]
      rw [this, show n + (k + 1) + 1 = n + 1 + k + 1 by omega]

/-- The loop returns `none` exactly when some call among its `ps.length`
calls would fail. -/
theorem analyzeLoop_none_iff (oracle : Nat → CallOutcome) :
    ∀ (ps : List String) (n : Nat) (acc : String),
    (analyzeLoop oracle ps n acc).1 = .ok none ↔
      ∃ j < ps.length, (oracle (n + j)).isOk = false := by
  intro ps
  induction ps with
  | nil => intro n acc; simp [analyzeLoop]
  | cons p rest ih =>
    intro n acc
    rcases ho : oracle n with _ | _ | _ | c
    case ok =>
      have hok : (oracle n).isOk = true := by simp [ho, CallOutcome.isOk]
      simp only [analyzeLoop, ho, callResult]
      rw [ih (n + 1) (acc ++ c ++ "\n\n")]
      constructor
      · rintro ⟨j, hj, hf⟩
        refine ⟨j + 1, by simpa using Nat.succ_lt_succ hj, ?_⟩
        rwa [show n + (j + 1) = n + 1 + j by omega]
      · rintro ⟨j, hj, hf⟩
        cases j with
        | zero => rw [Nat.add_zero] at hf; rw [hok] at hf; cases hf
        | succ k =>
          refine ⟨k, by simpa using hj, ?_⟩
          rwa [show n + 1 + k = n + (k + 1) by omega]
    all_goals
      simp only [analyzeLoop, ho, callResult]
      constructor
      · intro _
        exact ⟨0, by simp, by simp [ho, CallOutcome.isOk]⟩
      · intro _; trivial

/-- Projection of `analyze_eq_loop` to the returned value. -/
theorem analyze_result_eq (oracle : Nat → CallOutcome) (n : Nat) (ad s : String) :
    (analyze_ad_copy oracle n ad s).result = (analyzeLoop oracle prompts n "").1 := by
  rw [analyze_eq_loop]

/-- Projection of `analyze_eq_loop` to the call counter. -/
theorem analyze_calls_eq (oracle : Nat → CallOutcome) (n : Nat) (ad s : String) :
    (analyze_ad_copy oracle n ad s).calls = (analyzeLoop oracle prompts n "").2 := by
  rw [analyze_eq_loop]

/-- Projection of `analyze_eq_loop` to the attempt count. -/
theorem analyze_attempts_eq (oracle : Nat → CallOutcome) (n : Nat) (ad s : String) :
    (analyze_ad_copy oracle n ad s).attempts = 1 := by
  rw [analyze_eq_loop]

/-- C1: the claim says a chat-completion call that fails with a
transport-level exception is retried up to 3 attempts with exponential
backoff.  The code does not do this: the blanket `except Exception` inside
the prompt loop catches the transport exception first and makes the function
return `None`, so no exception ever reaches the tenacity decorator and the
retry configuration is dead code.  First conjunct: for EVERY oracle the
wrapper performs exactly one attempt.  Second conjunct: at the failing input
(a connection error on the very first call) the function gives up after one
HTTP call and one attempt and reports absent - no retry, no backoff. -/
theorem analyze_transport_error_not_retried :
    (∀ (oracle : Nat → CallOutcome) (n : Nat) (ad s : String),
        (analyze_ad_copy oracle n ad s).attempts = 1)
    ∧ analyze_ad_copy (fun _ => .transportError) 0
        "Title: Buy Widgets\nSnippet: Best widgets online\nDisplay URL: widgets.com"
        "widgets" = ⟨.ok none, 1, 1⟩ :=
  ⟨fun oracle n ad s => analyze_attempts_eq oracle n ad s, rfl⟩

/-- C3: for every record, if any of the 5 prompt calls fails (transport
exception, non-2xx status, or malformed 2xx body - every non-`ok` outcome),
`analyze_ad_copy` returns `None` for the whole record, and a string is
returned only when all five calls succeeded, so accumulated text from
earlier successful calls is never returned partially. -/
theorem analyze_absent_iff_any_call_fails (oracle : Nat → CallOutcome)
    (n : Nat) (ad s : String) :
    ((analyze_ad_copy oracle n ad s).result = .ok none ↔
      ∃ j < 5, (oracle (n + j)).isOk = false)
    ∧ (∀ t, (analyze_ad_copy oracle n ad s).result = .ok (some t) →
        ∀ j < 5, (oracle (n + j)).isOk = true) := by
  have hres := analyze_result_eq oracle n ad s
  have hiff := analyzeLoop_none_iff oracle prompts n ""
  have hlen : prompts.length = 5 := rfl
  rw [hlen] at hiff
  constructor
  · rw [hres]; exact hiff
  · intro t ht j hj
    cases hb : (oracle (n + j)).isOk with
    | false =>
      have hnone : (analyzeLoop oracle prompts n "").1 = .ok none :=
        hiff.mpr ⟨j, hj, hb⟩
      rw [hres, hnone] at ht
      simp at ht
    | true => rfl

/-- Witness for C3: with an HTTP 500 on the third call, the record's
analysis is absent. -/
theorem analyze_absent_iff_any_call_fails_witness :
    (analyze_ad_copy (fun k => if k = 2 then .httpError 500 else .ok "text")
      0 "ad" "s").result = .ok none :=
  (analyze_absent_iff_any_call_fails
    (fun k => if k = 2 then .httpError 500 else .ok "text") 0 "ad" "s").1.mpr
    ⟨2, by decide, by decide⟩

/-- C4: one invocation of `analyze_ad_copy` performs exactly 5 underlying
chat-completion HTTP calls when every call succeeds, and exactly `j + 1`
calls when call `j` (0-based, so the `(j+1)`-th call) is the first to fail;
no further prompt calls are issued after the aborting call. -/
theorem analyze_call_counts (oracle : Nat → CallOutcome) (n : Nat) (ad s : String) :
    ((∀ j < 5, (oracle (n + j)).isOk = true) →
        (analyze_ad_copy oracle n ad s).calls = n + 5)
    ∧ (∀ j < 5, (∀ k < j, (oracle (n + k)).isOk = true) →
        (oracle (n + j)).isOk = false →
        (analyze_ad_copy oracle n ad s).calls = n + j + 1) := by
  have hcalls := analyze_calls_eq oracle n ad s
  have hlen : prompts.length = 5 := rfl
  constructor
  · intro h
    obtain ⟨t, ht⟩ := analyzeLoop_all_ok oracle prompts n "" (by rw [hlen]; exact h)
    rw [hcalls, ht, hlen]
  · intro j hj hall hfail
    have hfj := analyzeLoop_first_fail oracle prompts j n "" (by rw [hlen]; exact hj) hall hfail
    rw [hcalls, hfj]

/-- Witness for C4: 5 calls on full success; 3 calls when the third call is
the first to fail. -/
theorem analyze_call_counts_witness :
    (analyze_ad_copy (fun _ => .ok "t") 0 "a" "b").calls = 5
    ∧ (analyze_ad_copy (fun k => if k = 2 then .transportError else .ok "t")
        0 "a" "b").calls = 3 := by
  constructor
  · have := (analyze_call_counts (fun _ => .ok "t") 0 "a" "b").1 (by decide)
    simpa using this
  · have := (analyze_call_counts
      (fun k => if k = 2 then .transportError else .ok "t") 0 "a" "b").2
      2 (by decide) (by decide) (by decide)
    simpa using this

/-- Characterization of `process_dataframe`: it never raises, and its rows
are exactly the per-record outcomes filtered to the successful ones, zipped
against the input records in order. -/
theorem process_dataframe_eq (oracle : Nat → CallOutcome) (s : String) :
    ∀ (df : List AdRecord) (n : Nat),
    (process_dataframe oracle s df n).1 =
      .ok ((df.zip (recordOutcomes oracle s df n)).filterMap
        (fun p => p.2.map (fun t =>
          ⟨p.1.title, p.1.snippet, p.1.displayed_link, t⟩))) := by
  intro df
  induction df with
  | nil => intro n; rfl
  | cons row rest ih =>
    intro n
    obtain ⟨v, n2, hv⟩ := analyzeLoop_ok oracle prompts n ""
    have ha : analyze_ad_copy oracle n (format_ad_copy row) s = ⟨.ok v, n2, 1⟩ := by
      rw [analyze_eq_loop, hv]
    cases v with
    | none =>
      simp only [process_dataframe, recordOutcomes, ha]
      rw [ih n2]
      simp
    | some t =>
      rcases hpr : process_dataframe oracle s rest n2 with ⟨res, n3⟩
      have hres : res = .ok ((rest.zip (recordOutcomes oracle s rest n2)).filterMap
          (fun p => p.2.map (fun u =>
            ⟨p.1.title, p.1.snippet, p.1.displayed_link, u⟩))) := by
        have := ih n2
        rw [hpr] at this
        exact this
      subst hres
      simp only [process_dataframe, recordOutcomes, ha, hpr]
      simp

/-- C2: for every batch and every pattern of per-record analyzer outcomes,
`process_dataframe` produces exactly one result row per succeeded record, in
input order; a failed record contributes nothing and leaves the rows of the
other records unchanged (the output is a `filterMap` of the per-record
outcome sequence); and the output length is at most the input length. -/
theorem process_dataframe_ordered_filter (oracle : Nat → CallOutcome)
    (search_term : String) (df : List AdRecord) (n : Nat) :
    (process_dataframe oracle search_term df n).1 =
      .ok ((df.zip (recordOutcomes oracle search_term df n)).filterMap
        (fun p => p.2.map (fun t =>
          ⟨p.1.title, p.1.snippet, p.1.displayed_link, t⟩)))
    ∧ ∀ rows, (process_dataframe oracle search_term df n).1 = .ok rows →
        rows.length ≤ df.length := by
  refine ⟨process_dataframe_eq oracle search_term df n, ?_⟩
  intro rows hrows
  rw [process_dataframe_eq oracle search_term df n, Except.ok.injEq] at hrows
  subst hrows
  refine le_trans (List.length_filterMap_le _ _) ?_
  rw [List.length_zip]
  exact Nat.min_le_left _ _

/-- Witness for C2: two records, the second failing on its first call: one
output row (for the first record), and the length bound 1 ≤ 2 follows from
the theorem. -/
theorem process_dataframe_ordered_filter_witness :
    ([(⟨"t1", "s1", "l1", "good\n\ngood\n\ngood\n\ngood\n\ngood\n\n"⟩ :
        AnalysisResult)].length ≤
      [(⟨"t1", "s1", "l1"⟩ : AdRecord), ⟨"t2", "s2", "l2"⟩].length)
    ∧ (process_dataframe (fun k => if k < 5 then .ok "good" else .transportError)
        "w" [⟨"t1", "s1", "l1"⟩, ⟨"t2", "s2", "l2"⟩] 0).1 =
      .ok [⟨"t1", "s1", "l1", "good\n\ngood\n\ngood\n\ngood\n\ngood\n\n"⟩] :=
  ⟨(process_dataframe_ordered_filter
      (fun k => if k < 5 then .ok "good" else .transportError) "w"
      [⟨"t1", "s1", "l1"⟩, ⟨"t2", "s2", "l2"⟩] 0).2
      [⟨"t1", "s1", "l1", "good\n\ngood\n\ngood\n\ngood\n\ngood\n\n"⟩] rfl,
   rfl⟩

/-- C6 (amended): when all 5 prompt calls succeed, the analysis string is
the five response texts in prompt order, EACH followed by a blank-line
separator - i.e. the blank-line-separated concatenation plus one trailing
separator, because the loop appends `content + "\n\n"` after every prompt
including the last. -/
theorem analyze_success_concatenation (oracle : Nat → CallOutcome) (n : Nat)
    (ad s a b c d e : String)
    (h0 : oracle n = .ok a) (h1 : oracle (n + 1) = .ok b)
    (h2 : oracle (n + 2) = .ok c) (h3 : oracle (n + 3) = .ok d)
    (h4 : oracle (n + 4) = .ok e) :
    (analyze_ad_copy oracle n ad s).result =
      .ok (some (a ++ "\n\n" ++ b ++ "\n\n" ++ c ++ "\n\n" ++ d ++ "\n\n" ++ e ++ "\n\n")) := by
  have h2a : oracle (n + 1 + 1) = .ok c := by rwa [show n + 1 + 1 = n + 2 by omega]
  have h3a : oracle (n + 1 + 1 + 1) = .ok d := by rwa [show n + 1 + 1 + 1 = n + 3 by omega]
  have h4a : oracle (n + 1 + 1 + 1 + 1) = .ok e := by
    rwa [show n + 1 + 1 + 1 + 1 = n + 4 by omega]
  rw [analyze_result_eq]
  simp [prompts, analyzeLoop, callResult, h0, h1, h2a, h3a, h4a, String.empty_append]

/-- Witness for C6's amended theorem: distinct one-letter responses. -/
theorem analyze_success_concatenation_witness :
    (analyze_ad_copy (fun k => .ok (["a", "b", "c", "d", "e"].getD k "")) 0
      "ad" "s").result =
      .ok (some ("a" ++ "\n\n" ++ "b" ++ "\n\n" ++ "c" ++ "\n\n" ++ "d" ++ "\n\n" ++ "e" ++ "\n\n")) :=
  analyze_success_concatenation (fun k => .ok (["a", "b", "c", "d", "e"].getD k ""))
    0 "ad" "s" "a" "b" "c" "d" "e" rfl rfl rfl rfl rfl

/-- C6 counterexample: the claim as stated says the analysis field equals the
concatenation of the 5 response texts separated by blank lines.  With the 5
responses "a".."e", the field actually produced carries a TRAILING blank-line
separator as well, so it differs from the blank-line intercalation of the
five texts. -/
theorem analysis_has_trailing_separator :
    (analyze_ad_copy (fun k => .ok (["a", "b", "c", "d", "e"].getD k "")) 0
      "ad" "s").result = .ok (some "a\n\nb\n\nc\n\nd\n\ne\n\n")
    ∧ "a\n\nb\n\nc\n\nd\n\ne\n\n" ≠ String.intercalate "\n\n" ["a", "b", "c", "d", "e"] :=
  ⟨rfl, by decide⟩

/-- C5: `check_rate_limits` returns the pair extracted from the body when
the probe answers HTTP 200 with a well-shaped body; it returns
`(None, None)` on any non-200 status and on a transport failure; a non-`None`
pair is returned ONLY for a 200 answer whose body held that pair; and
whenever the probe result is `None` the analyze run returns before
`process_dataframe`, producing zero rows and zero chat-completion calls. -/
theorem check_rate_limits_contract :
    (∀ q i : Int, check_rate_limits (some ⟨200, some (q, i)⟩) = ((some q, some i), 0))
    ∧ (∀ resp : ProbeResponse, resp.status ≠ 200 →
        check_rate_limits (some resp) = ((none, none), 1))
    ∧ check_rate_limits none = ((none, none), 1)
    ∧ (∀ (resp : ProbeResponse) (q i : Int),
        (check_rate_limits (some resp)).1 = (some q, some i) →
        resp.status = 200 ∧ resp.rateLimit = some (q, i))
    ∧ (∀ (organic : Option (List AdRecord)) (probe : Option ProbeResponse)
        (oracle : Nat → CallOutcome) (search_term : String),
        (check_rate_limits probe).1.1 = none →
        run_analyze_click (.parsed (.object organic)) probe oracle search_term =
          (.rateLimitGated, 0)) := by
  refine ⟨?_, ?_, rfl, ?_, ?_⟩
  · intro q i
    simp [check_rate_limits, check_rate_limits_try]
  · intro resp h
    simp [check_rate_limits, check_rate_limits_try, h]
  · rintro ⟨st, rl⟩ q i h
    by_cases hst : st = 200
    · subst hst
      cases rl with
      | none => simp [check_rate_limits, check_rate_limits_try] at h
      | some qi =>
        simp only [check_rate_limits, check_rate_limits_try, if_pos rfl] at h
        obtain ⟨h1, h2⟩ := Prod.mk.injEq .. ▸ h
        simp only [Option.some.injEq] at h1 h2
        subst h1; subst h2
        exact ⟨rfl, rfl⟩
    · simp [check_rate_limits, check_rate_limits_try, hst] at h
  · intro organic probe oracle search_term h
    simp [run_analyze_click, json_to_dataframe, h]

/-- Witness for C5: a well-shaped 200 probe yields the extracted pair; a 429
probe yields `(None, None)`; and after a transport-failing probe the run is
gated with zero rows and zero calls. -/
theorem check_rate_limits_contract_witness :
    check_rate_limits (some ⟨200, some (3, 7)⟩) = ((some 3, some 7), 0)
    ∧ check_rate_limits (some ⟨429, none⟩) = ((none, none), 1)
    ∧ run_analyze_click (.parsed (.object none)) none (fun _ => .ok "t") "w" =
        (.rateLimitGated, 0) :=
  ⟨check_rate_limits_contract.1 3 7,
   check_rate_limits_contract.2.1 ⟨429, none⟩ (by decide),
   check_rate_limits_contract.2.2.2.2 none none (fun _ => .ok "t") "w" rfl⟩

/-- C7: an uploaded document that lacks the expected structure (bytes that
are not JSON, or a top level that is not an object) makes the whole run
abort through the surfaced error handler with zero records processed and
zero chat-completion calls; and for a structurally valid document the run
never ends in that handler, whatever the probe and the per-call outcomes -
malformed top-level input is the only failure that aborts the run. -/
theorem input_format_error_aborts_run :
    (∀ (probe : Option ProbeResponse) (oracle : Nat → CallOutcome) (search_term : String),
        run_analyze_click .invalidJson probe oracle search_term = (.inputError, 0)
        ∧ run_analyze_click (.parsed .nonObject) probe oracle search_term = (.inputError, 0))
    ∧ (∀ (organic : Option (List AdRecord)) (probe : Option ProbeResponse)
        (oracle : Nat → CallOutcome) (search_term : String),
        (run_analyze_click (.parsed (.object organic)) probe oracle search_term).1 ≠
          .inputError) := by
  refine ⟨fun probe oracle search_term => ⟨rfl, rfl⟩, ?_⟩
  intro organic probe oracle search_term
  simp only [run_analyze_click, json_to_dataframe]
  cases hrl : (check_rate_limits probe).1.1 with
  | none => simp
  | some q =>
    simp only []
    rcases hpr : process_dataframe oracle search_term (organic.getD []) 0 with ⟨res, n2⟩
    have := process_dataframe_eq oracle search_term (organic.getD []) 0
    rw [hpr] at this
    cases res with
    | error e => simp at this
    | ok rows => simp

/-- Witness for C7: a non-JSON upload aborts with zero records, and a valid
empty-object upload does not end in the error handler. -/
theorem input_format_error_aborts_run_witness :
    run_analyze_click .invalidJson none (fun _ => .ok "t") "w" = (.inputError, 0)
    ∧ (run_analyze_click (.parsed (.object none)) none (fun _ => .ok "t") "w").1 ≠
        .inputError :=
  ⟨(input_format_error_aborts_run.1 none (fun _ => .ok "t") "w").1,
   input_format_error_aborts_run.2 none none (fun _ => .ok "t") "w"⟩

/-- C9: a document whose `organic_results` key is absent, or maps to the
empty list, yields the empty record table, and the run then completes
normally whenever the probe passes: zero chat-completion calls, an empty
result sequence, and no malformed-input abort. -/
theorem missing_organic_results_runs_clean :
    json_to_dataframe (.object none) = .ok []
    ∧ json_to_dataframe (.object (some [])) = .ok []
    ∧ (∀ (probe : Option ProbeResponse) (oracle : Nat → CallOutcome)
        (search_term : String),
        (check_rate_limits probe).1.1 ≠ none →
        run_analyze_click (.parsed (.object none)) probe oracle search_term = (.done [], 0)
        ∧ run_analyze_click (.parsed (.object (some []))) probe oracle search_term =
            (.done [], 0))
    ∧ (∀ (probe : Option ProbeResponse) (oracle : Nat → CallOutcome)
        (search_term : String),
        (run_analyze_click (.parsed (.object none)) probe oracle search_term).1 ≠
          .inputError) := by
  refine ⟨rfl, rfl, ?_, ?_⟩
  · intro probe oracle search_term h
    cases hrl : (check_rate_limits probe).1.1 with
    | none => exact absurd hrl h
    | some q =>
      constructor <;> simp [run_analyze_click, json_to_dataframe, hrl, process_dataframe]
  · intro probe oracle search_term
    simp only [run_analyze_click, json_to_dataframe]
    cases hrl : (check_rate_limits probe).1.1 with
    | none => simp
    | some q => simp [process_dataframe]

/-- Witness for C9: with a passing probe, the empty-key document runs to a
normal empty completion with zero calls. -/
theorem missing_organic_results_runs_clean_witness :
    run_analyze_click (.parsed (.object none)) (some ⟨200, some (1, 10)⟩)
      (fun _ => .transportError) "w" = (.done [], 0)
    ∧ run_analyze_click (.parsed (.object (some []))) (some ⟨200, some (1, 10)⟩)
      (fun _ => .transportError) "w" = (.done [], 0) :=
  missing_organic_results_runs_clean.2.2.1 (some ⟨200, some (1, 10)⟩)
    (fun _ => .transportError) "w" (by decide)

/-- C10: `check_rate_limits` is a total function - every failure of the
`try` block, including a 200 response whose body is not JSON or lacks the
`data.rate_limit` shape, lands in the `except` handler, which returns
`(None, None)` after emitting one error message; such a response therefore
gates the analyze run exactly as a transport failure does. -/
theorem check_rate_limits_handles_bad_body :
    (∀ resp : ProbeResponse, resp.status = 200 → resp.rateLimit = none →
        check_rate_limits (some resp) = ((none, none), 1))
    ∧ check_rate_limits none = ((none, none), 1)
    ∧ (∀ (organic : Option (List AdRecord)) (oracle : Nat → CallOutcome)
        (search_term : String),
        run_analyze_click (.parsed (.object organic)) (some ⟨200, none⟩) oracle search_term =
          run_analyze_click (.parsed (.object organic)) none oracle search_term) := by
  refine ⟨?_, rfl, ?_⟩
  · rintro ⟨st, rl⟩ hst hrl
    simp only at hst hrl
    subst hst; subst hrl
    rfl
  · intro organic oracle search_term
    rfl

/-- Witness for C10: a 200 answer with an unusable body produces the same
gated run as a transport failure. -/
theorem check_rate_limits_handles_bad_body_witness :
    check_rate_limits (some ⟨200, none⟩) = ((none, none), 1)
    ∧ run_analyze_click (.parsed (.object none)) (some ⟨200, none⟩)
        (fun _ => .ok "t") "w" =
      run_analyze_click (.parsed (.object none)) none (fun _ => .ok "t") "w" :=
  ⟨check_rate_limits_handles_bad_body.1 ⟨200, none⟩ rfl rfl,
   check_rate_limits_handles_bad_body.2.2 none (fun _ => .ok "t") "w"⟩

/-! ### CSV round trip -/

/-- Reading an unquoted serialized field consumes exactly the field and
stops at the separator. -/
theorem parseUnquoted_append :
    ∀ (s rest : List Char), (∀ c ∈ s, needsQuote c = false) →
    (rest.head? = some ',' ∨ rest.head? = some '\n') →
    parseUnquoted (s ++ rest) = (s, rest) := by
  intro s
  induction s with
  | nil =>
    intro rest _ hr
    cases rest with
    | nil => simp at hr
    | cons c t =>
      have hc : c = ',' ∨ c = '\n' := by
        rcases hr with h | h
        · left; simpa using h
        · right; simpa using h
      rcases hc with rfl | rfl <;> simp [parseUnquoted]
  | cons c cs ih =>
    intro rest hq hr
    have hc := hq c (List.mem_cons_self c cs)
    have hc1 : ¬(c = ',' ∨ c = '\n') := by
      simp only [needsQuote, Bool.or_eq_false_iff, beq_eq_false_iff_ne, ne_eq] at hc
      rintro (h | h)
      · exact hc.1.1.1 h
      · exact hc.1.2 h
    rw [List.cons_append]
    simp only [parseUnquoted, if_neg hc1]
    rw [ih rest (fun x hx => hq x (List.mem_cons_of_mem c hx)) hr]

/-- Unfolding step of `parseQuoted` at a non-quote character. -/
theorem parseQuoted_cons_ne (c : Char) (L : List Char) (hc : ¬c = '\"') :
    parseQuoted (c :: L) = (c :: (parseQuoted L).1, (parseQuoted L).2) := by
  cases L with
  | nil => simp [parseQuoted, hc]
  | cons d t => simp [parseQuoted, hc]

/-- Reading a quoted serialized field (opening quote already consumed)
recovers the field and stops after the closing quote. -/
theorem parseQuoted_append :
    ∀ (s rest : List Char), (rest.head? = some ',' ∨ rest.head? = some '\n') →
    parseQuoted (escQ s ++ ('\"' :: rest)) = (s, rest) := by
  intro s
  induction s with
  | nil =>
    intro rest hr
    cases rest with
    | nil => simp at hr
    | cons c t =>
      have hc : c = ',' ∨ c = '\n' := by
        rcases hr with h | h
        · left; simpa using h
        · right; simpa using h
      have hcq : c ≠ '\"' := by rcases hc with rfl | rfl <;> decide
      simp [escQ, parseQuoted, hcq]
  | cons c cs ih =>
    intro rest hr
    by_cases hc : c = '\"'
    · subst hc
      simp [escQ, parseQuoted, ih rest hr]
    · rw [show escQ (c :: cs) = c :: escQ cs from by simp [escQ, hc]]
      rw [List.cons_append, parseQuoted_cons_ne c _ hc, ih rest hr]

/-- Reading any encoded field recovers the field and stops at the
separator. -/
theorem parseField_encodeField :
    ∀ (s rest : List Char), (rest.head? = some ',' ∨ rest.head? = some '\n') →
    parseField (encodeField s ++ rest) = (s, rest) := by
  intro s rest hr
  by_cases hq : s.any needsQuote = true
  · simp only [encodeField, if_pos hq]
    rw [List.cons_append, List.append_assoc, List.singleton_append]
    simp only [parseField, if_pos rfl]
    exact parseQuoted_append s rest hr
  · have hall : ∀ c ∈ s, needsQuote c = false := by
      intro c hcmem
      rcases Bool.eq_false_or_eq_true (needsQuote c) with h | h
      · exact absurd (List.any_eq_true.mpr ⟨c, hcmem, h⟩) hq
      · exact h
    simp only [encodeField, if_neg hq]
    cases s with
    | nil =>
      cases rest with
      | nil => simp at hr
      | cons c t =>
        have hc : c = ',' ∨ c = '\n' := by
          rcases hr with h | h
          · left; simpa using h
          · right; simpa using h
        rcases hc with rfl | rfl <;> simp [parseField, parseUnquoted]
    | cons c cs =>
      have hcn := hall c (List.mem_cons_self c cs)
      have hcq : c ≠ '\"' := by
        intro h
        rw [h] at hcn
        exact absurd hcn (by decide)
      rw [List.cons_append]
      simp only [parseField, if_neg hcq]
      rw [← List.cons_append]
      exact parseUnquoted_append (c :: cs) rest hall hr

/-- Reading the fields of an encoded row (with enough fuel) recovers the
fields and stops after the line terminator. -/
theorem parseFields_encodeRow :
    ∀ (fields : List (List Char)) (fuel : Nat) (rest : List Char),
    fields ≠ [] → fields.length ≤ fuel →
    parseFields fuel (encodeRow fields ++ ('\n' :: rest)) = (fields, rest) := by
  intro fields
  induction fields with
  | nil => intro fuel rest h _; exact absurd rfl h
  | cons f fs ih =>
    intro fuel rest _ hlen
    cases fuel with
    | zero => exact absurd hlen (by simp)
    | succ fu =>
      cases fs with
      | nil =>
        have hp := parseField_encodeField f ('\n' :: rest) (Or.inr rfl)
        simp only [encodeRow]
        simp [parseFields, hp]
      | cons g gs =>
        have hp := parseField_encodeField f
          (',' :: (encodeRow (g :: gs) ++ ('\n' :: rest))) (Or.inl rfl)
        have hrec := ih fu rest (by simp)
          (by simp only [List.length_cons] at hlen ⊢; omega)
        rw [show encodeRow (f :: g :: gs) =
          encodeField f ++ ',' :: encodeRow (g :: gs) from rfl]
        rw [List.append_assoc, List.cons_append]
        simp [parseFields, hp, hrec]

/-- A row of `k` fields serializes to at least `k - 1` characters. -/
theorem encodeRow_length_ge :
    ∀ fields : List (List Char), fields.length ≤ (encodeRow fields).length + 1 := by
  intro fields
  induction fields with
  | nil => simp [encodeRow]
  | cons f fs ih =>
    cases fs with
    | nil => simp [encodeRow]
    | cons g gs =>
      rw [show encodeRow (f :: g :: gs) =
        encodeField f ++ ',' :: encodeRow (g :: gs) from rfl]
      simp only [List.length_cons, List.length_append] at ih ⊢
      omega

/-- Reading one encoded record recovers the fields. -/
theorem parseRecord_encodeRow (fields : List (List Char)) (rest : List Char)
    (h : fields ≠ []) :
    parseRecord (encodeRow fields ++ ('\n' :: rest)) = (fields, rest) := by
  show parseFields ((encodeRow fields ++ ('\n' :: rest)).length + 1)
    (encodeRow fields ++ ('\n' :: rest)) = (fields, rest)
  refine parseFields_encodeRow fields _ rest h ?_
  have h1 := encodeRow_length_ge fields
  simp only [List.length_append, List.length_cons]
  omega

/-- Reading a concatenation of encoded lines (with enough fuel) recovers the
rows. -/
theorem parseRows_encode :
    ∀ (rws : List (List (List Char))) (fuel : Nat),
    (∀ row ∈ rws, row ≠ []) → rws.length ≤ fuel →
    parseRows fuel ((rws.map encodeLine).flatten) = rws := by
  intro rws
  induction rws with
  | nil => intro fuel _ _; cases fuel <;> simp [parseRows]
  | cons row rest ih =>
    intro fuel hne hlen
    cases fuel with
    | zero => exact absurd hlen (by simp)
    | succ fu =>
      have hrow : row ≠ [] := hne row (List.mem_cons_self row rest)
      have hflat : ((row :: rest).map encodeLine).flatten =
          encodeRow row ++ ('\n' :: ((rest.map encodeLine).flatten)) := by
        simp [encodeLine]
      rw [hflat]
      have hnonempty : encodeRow row ++ ('\n' :: ((rest.map encodeLine).flatten)) ≠ [] := by
        simp
      simp only [parseRows, if_neg hnonempty]
      rw [parseRecord_encodeRow row _ hrow]
      rw [ih fu (fun x hx => hne x (List.mem_cons_of_mem row hx))
        (by simp only [List.length_cons] at hlen; omega)]

/-- Each encoded line holds at least its line terminator. -/
theorem encode_flatten_length :
    ∀ rws : List (List (List Char)),
    rws.length ≤ ((rws.map encodeLine).flatten).length := by
  intro rws
  induction rws with
  | nil => simp
  | cons row rest ih =>
    have hline : (encodeLine row).length = (encodeRow row).length + 1 := by
      simp [encodeLine]
    simp only [List.map_cons, List.flatten_cons, List.length_append, List.length_cons]
    omega

/-- C8: exporting the result rows as CSV and re-parsing the export yields
rows whose (title, snippet, displayed_link, analysis) tuples equal the
original tuples exactly, in order.  The first parsed line is the header row,
dropped here; field contents are compared as character sequences. -/
theorem csv_export_round_trip (rows : List AnalysisResult) :
    (parseCsv (results_to_csv rows)).drop 1 =
      rows.map (fun r =>
        [r.title.data, r.snippet.data, r.displayed_link.data, r.analysis.data]) := by
  cases rows with
  | nil => rfl
  | cons r rs =>
    have hform : results_to_csv (r :: rs) =
        ((csvHeader :: (r :: rs).map toFields).map encodeLine).flatten := by
      show encodeLine csvHeader ++
        ((r :: rs).map (fun x => encodeLine (toFields x))).flatten = _
      simp only [List.map_cons, List.flatten_cons, List.map_map]
      rfl
    have hne : ∀ row ∈ csvHeader :: (r :: rs).map toFields, row ≠ [] := by
      intro row hrow
      rcases List.mem_cons.mp hrow with rfl | hmem
      · simp [csvHeader]
      · obtain ⟨x, _, rfl⟩ := List.mem_map.mp hmem
        simp [toFields]
    have hmain : parseCsv (results_to_csv (r :: rs)) =
        csvHeader :: (r :: rs).map toFields := by
      rw [hform]
      show parseRows ((((csvHeader :: (r :: rs).map toFields).map encodeLine).flatten).length + 1)
        (((csvHeader :: (r :: rs).map toFields).map encodeLine).flatten) = _
      exact parseRows_encode _ _ hne
        (le_trans (encode_flatten_length _) (Nat.le_succ _))
    rw [hmain]
    simp [toFields]
